import Mathlib

/-!
Verification of the link-resolution-and-replacement engine of
`mkdocs-ezlinks-plugin` (files `replacer.py` and `types.py`), as a shallow
embedding in Lean 4.

External collaborators (the per-syntax recognizers, the file-location index,
and the regex engine's scanning pass) are modelled abstractly, following the
collaborator contracts the code relies on: a recognizer is a pair of
functions on the matched span, the location index is a function returning a
path string (empty = not found, matching the code's falsiness check), and a
regex scan is a segmentation of the document into unmatched text and matched
spans.

The Python standard-library functions used by the code (`os.path.join`,
`os.path.dirname`, `os.path.normpath`, `os.path.relpath`,
`urllib.parse.quote`) are given faithful executable models over character
lists (`relpath` is faithful for absolute arguments, which is how the code
uses it: both arguments derive from the absolute docs root).
-/

namespace EzLinks

/-- `Link` dataclass from `types.py`: the syntax-independent record of one
link occurrence or definition. -/
structure Link where
  image : Bool
  text : String
  target : String
  anchor : String
  title : String
  deriving Repr, DecidableEq

/-- `Link.render` from `types.py`: serialize a Link back to markdown. When
`title_as_text` is set and the title is non-empty, the title is used as the
visible label and the quoted-title suffix is dropped. -/
def Link.render (l : Link) (title_as_text : Bool) : String :=
  let img := if l.image then "!" else ""
  let anchor := if l.anchor = "" then "" else "#" ++ l.anchor
  let title := if l.title = "" then "" else " \"" ++ l.title ++ "\""
  if title_as_text ∧ l.title ≠ "" then
    img ++ "[" ++ l.title ++ "](" ++ l.target ++ anchor ++ ")"
  else
    img ++ "[" ++ l.text ++ "](" ++ l.target ++ anchor ++ title ++ ")"

/-! ### Models of the Python standard-library path and URL helpers -/

/-- Membership of a character in a string, modelling Python's `in` test on
`str` (for single characters). -/
def containsChar (s : String) (c : Char) : Bool :=
  s.data.contains c

/-- Does the string begin with a slash (`posixpath.isabs`)? -/
def startsWithSlash (s : String) : Bool :=
  match s.data with
  | [] => false
  | c :: _ => c = '/'

/-- Does the string end with a slash? -/
def endsWithSlash (s : String) : Bool :=
  s.data.getLast? = some '/'

/-- `os.path.join` (POSIX) for two arguments. -/
def pathJoin (a b : String) : String :=
  if startsWithSlash b then b
  else if a = "" ∨ endsWithSlash a then a ++ b
  else a ++ "/" ++ b

/-- `os.path.dirname` (POSIX): everything up to the last slash, with
trailing slashes stripped unless the head is all slashes. -/
def dirname (p : String) : String :=
  let cs := p.data
  match cs.reverse.findIdx? (· = '/') with
  | none => ""
  | some k =>
    let head := cs.take (cs.length - k)
    if head.all (· = '/') then String.mk head
    else String.mk ((head.reverse.dropWhile (· = '/')).reverse)

/-- Split a character list at every slash, like Python's `str.split('/')`. -/
def splitSlashAux : List Char → List (List Char)
  | [] => [[]]
  | c :: cs =>
    let r := splitSlashAux cs
    if c = '/' then [] :: r
    else
      match r with
      | h :: t => (c :: h) :: t
      | [] => [[c]]

/-- `str.split('/')` on a string. -/
def splitSlash (s : String) : List String :=
  (splitSlashAux s.data).map String.mk

/-- Join path components with slashes, like `'/'.join(comps)`. -/
def joinComps : List String → String
  | [] => ""
  | [x] => x
  | x :: xs => x ++ "/" ++ joinComps xs

/-- `os.path.normpath` (POSIX): collapse `.`/`..`/repeated slashes,
preserving the POSIX double-slash special case. -/
def normpath (p : String) : String :=
  if p = "" then "."
  else
    let lead := (p.data.takeWhile (· = '/')).length
    let initialSlashes : Nat := if lead = 0 then 0 else if lead = 2 then 2 else 1
    let comps := splitSlash p
    let newComps := comps.foldl (fun acc comp =>
      if comp = "" ∨ comp = "." then acc
      else if comp ≠ ".." ∨ (initialSlashes = 0 ∧ acc = []) ∨ acc.getLast? = some ".." then
        acc ++ [comp]
      else if acc ≠ [] then acc.dropLast
      else acc) []
    let path := String.mk (List.replicate initialSlashes '/') ++ joinComps newComps
    if path = "" then "." else path

/-- Length of the longest common prefix of two component lists. -/
def commonPrefixLen : List String → List String → Nat
  | a :: as, b :: bs => if a = b then commonPrefixLen as bs + 1 else 0
  | _, _ => 0

/-- `os.path.relpath` (POSIX), faithful when both arguments are absolute
(as in the code, where both derive from the absolute docs root). -/
def relpath (path start : String) : String :=
  let pathList := (splitSlash (normpath path)).filter (· ≠ "")
  let startList := (splitSlash (normpath start)).filter (· ≠ "")
  let i := commonPrefixLen startList pathList
  let relList := List.replicate (startList.length - i) ".." ++ pathList.drop i
  if relList = [] then "." else joinComps relList

/-- UTF-8 encoding of one character, as a list of byte values. -/
def utf8Bytes (c : Char) : List Nat :=
  let n := c.toNat
  if n < 0x80 then [n]
  else if n < 0x800 then [0xC0 + n / 0x40, 0x80 + n % 0x40]
  else if n < 0x10000 then
    [0xE0 + n / 0x1000, 0x80 + (n / 0x40) % 0x40, 0x80 + n % 0x40]
  else
    [0xF0 + n / 0x40000, 0x80 + (n / 0x1000) % 0x40, 0x80 + (n / 0x40) % 0x40,
      0x80 + n % 0x40]

/-- Bytes `urllib.parse.quote` leaves unescaped with the default
`safe='/'`: ASCII letters, digits, `_ . - ~`, and the slash. -/
def isUnreservedByte (b : Nat) : Bool :=
  (65 ≤ b ∧ b ≤ 90) ∨ (97 ≤ b ∧ b ≤ 122) ∨ (48 ≤ b ∧ b ≤ 57) ∨
    b = 45 ∨ b = 46 ∨ b = 95 ∨ b = 126 ∨ b = 47

/-- Upper-case hexadecimal digit. -/
def hexUpper (n : Nat) : Char :=
  if n < 10 then Char.ofNat (48 + n) else Char.ofNat (55 + n)

/-- Percent-encoding of one byte, as `urllib.parse.quote` does it. -/
def quoteByte (b : Nat) : List Char :=
  if isUnreservedByte b then [Char.ofNat b]
  else ['%', hexUpper (b / 16), hexUpper (b % 16)]

/-- Percent-encoding of a character: encode its UTF-8 bytes. -/
def quoteChar (c : Char) : List Char :=
  (utf8Bytes c).flatMap quoteByte

/-- Percent-encoding of a character list. -/
def quoteList : List Char → List Char
  | [] => []
  | c :: cs => quoteChar c ++ quoteList cs

/-- `urllib.parse.quote` with its default `safe='/'`. -/
def quote (s : String) : String :=
  String.mk (quoteList s.data)

/-! ### The replacer (`replacer.py`) -/

/-- Modelled from the spec: a syntax recognizer (`BaseLinkScanner`
subclass; the scanner classes are outside `src/`). Per the collaborator
contract, a recognizer is given a matched span of text and either claims it
(`matches`) and produces a Link record (`extract`), or declines. -/
structure Scanner where
  claims : String → Bool
  extract : String → Option Link

/-- The per-document target map: Python dict from definition text to its
resolved Link. Represented as an association list where insertion prepends,
so a later insert for the same key shadows an earlier one (dict overwrite). -/
abbrev TargetMap := List (String × Link)

/-- Dict insertion (`target_map[k] = v`): the new binding shadows any older
one for the same key. -/
def tmInsert (tm : TargetMap) (k : String) (v : Link) : TargetMap :=
  (k, v) :: tm

/-- Dict lookup (`target_map[k]`, and `k in target_map` via `isSome`). -/
def tmFind (tm : TargetMap) (k : String) : Option Link :=
  (tm.find? (fun p => p.1 == k)).map (·.2)

/-- One segment of the document as carved up by the compiled multi-pattern
regex: either text the regex did not match (passed through by `re.sub`
unchanged) or one matched span handed to the replacement callback.
Modelled from the spec: the regex engine's scanning pass is abstracted as a
segmentation of the input. -/
inductive Seg where
  | plain (s : String)
  | matched (m : String)
  deriving Repr, DecidableEq

/-- The text a segment covers. -/
def segText : Seg → String
  | .plain s => s
  | .matched m => m

/-- Concatenation of a segmentation's text (equals the input document when
the segmentation is faithful to `re.sub`). -/
def concatSegs : List Seg → String
  | [] => ""
  | s :: t => segText s ++ concatSegs t

/-- The `EzLinksReplacer` object from `replacer.py`. `search` models the
`FileMapper.search` collaborator (outside `src/`): it returns the resolved
path, with the empty string as the not-found signal (matching the code's
`if not search_result` falsiness check). `tokenize` and `findTargets`
model the two compiled regexes' scans (`re.sub` over `self.regex`,
`re.finditer` over `self.target_regex`) as functions from the document to
its matched spans frozen at `compile()` time. -/
structure EzLinksReplacer where
  root : String
  search : String → String → String
  use_directory_urls : Bool
  scanners : List Scanner
  target_scanners : List Scanner
  tokenize : String → List Seg
  findTargets : String → List String

/-- The extension massaging applied to a search result
(`replacer.py` lines 93-94 and 132-133): when directory URLs are off,
append `.md` unless the string already contains a dot anywhere. -/
def massageSearchResult (use_directory_urls : Bool) (search_result : String) : String :=
  if use_directory_urls then search_result
  else if containsChar search_result '.' then search_result
  else search_result ++ ".md"

/-- The per-link massaging of `_build_target_map` (lines 84-100): resolve
the link's target (self-anchor, or through the file map with the extension
massaging), then make it relative to the document's directory. Errors are
the `BrokenLink` messages the code raises. -/
def resolveDefinition (r : EzLinksReplacer) (path abs_from : String)
    (link : Link) (m : String) : Except String Link :=
  if link.target = "" then
    if link.anchor = "" then .error ("No target for link " ++ m)
    else .ok { link with target := relpath (pathJoin r.root path) abs_from }
  else
    let s := massageSearchResult r.use_directory_urls (r.search path link.target)
    if s = "" then .error (link.target ++ " not found.")
    else .ok { link with target := relpath s abs_from }

/-- The inner scanner loop of `_build_target_map` (lines 79-102). Note the
loop has no break: every claiming scanner inserts into the map. A raised
`BrokenLink` aborts the rest of the loop for this match but keeps the
insertions already made (the Python dict mutations persist past the
`except`). Returns the updated map and the raised message, if any. -/
def processDefScanners (r : EzLinksReplacer) (path abs_from m : String) :
    List Scanner → TargetMap → TargetMap × Option String
  | [], tm => (tm, none)
  | sc :: rest, tm =>
    if sc.claims m then
      match sc.extract m with
      | none => (tm, some ("Could not extract link from " ++ m))
      | some link =>
        match resolveDefinition r path abs_from link m with
        | .error e => (tm, some e)
        | .ok link2 => processDefScanners r path abs_from m rest (tmInsert tm link2.text link2)
    else processDefScanners r path abs_from m rest tm

/-- `_build_target_map` (lines 74-108): fold the definition-scanner loop
over every match of the target regex, logging each `BrokenLink` at debug
severity. Returns the target map and the log lines. -/
def buildTargetMap (r : EzLinksReplacer) (path : String) (ms : List String) :
    TargetMap × List String :=
  let abs_from := dirname (pathJoin r.root path)
  ms.foldl (fun acc m =>
    let step := processDefScanners r path abs_from m r.target_scanners acc.1
    (step.1,
      acc.2 ++ (match step.2 with
        | none => []
        | some e => ["[EzLinks] " ++ e]))) ([], [])

/-- The common tail of `_do_replace` (lines 139-140): percent-encode the
target made relative to the document's directory, then render. -/
def finalRender (abs_from : String) (link : Link) : String :=
  ({ link with target := quote (relpath link.target abs_from) } : Link).render false

/-- The body of `_do_replace` for one extracted link (lines 120-140):
self-anchor handling, the target-map early return (rendering the definition
with its title as the visible text), or resolution through the file map
with the extension massaging. -/
def doReplaceLink (r : EzLinksReplacer) (path abs_from : String) (tm : TargetMap)
    (link : Link) (m : String) : Except String String :=
  if link.target = "" then
    if link.anchor = "" then .error ("No target for link " ++ m)
    else .ok (finalRender abs_from { link with target := pathJoin r.root path })
  else
    match tmFind tm link.target with
    | some d => .ok (d.render true)
    | none =>
      let s := massageSearchResult r.use_directory_urls (r.search path link.target)
      if s = "" then .error (link.target ++ " not found.")
      else .ok (finalRender abs_from { link with target := s })

/-- The scanner loop of `_do_replace` (lines 113-140): the first claiming
scanner's result is returned; a match no scanner claims yields `none`
(falling through to the verbatim return). -/
def scanLoop (r : EzLinksReplacer) (path abs_from : String) (tm : TargetMap)
    (m : String) : List Scanner → Except String (Option String)
  | [] => .ok none
  | sc :: rest =>
    if sc.claims m then
      match sc.extract m with
      | none => .error ("Could not extract link from " ++ m)
      | some link => (doReplaceLink r path abs_from tm link m).map some
    else scanLoop r path abs_from tm m rest

/-- `_do_replace` (lines 110-147): run the scanner loop under the
`BrokenLink` handler; on an exception, log it at debug severity and return
the original matched text; likewise return the original text when no
scanner claims the match. Returns the replacement and the log lines. -/
def doReplace (r : EzLinksReplacer) (path : String) (tm : TargetMap) (m : String) :
    String × List String :=
  match scanLoop r path (dirname (pathJoin r.root path)) tm m r.scanners with
  | .ok (some out) => (out, [])
  | .ok none => (m, [])
  | .error e => (m, ["[EzLinks] " ++ e])

/-- The `re.sub` pass: unmatched text passes through unchanged; each
matched span is replaced by `_do_replace`'s result. Log lines accumulate. -/
def reSub (r : EzLinksReplacer) (path : String) (tm : TargetMap) :
    List Seg → String × List String
  | [] => ("", [])
  | seg :: rest =>
    let head := match seg with
      | .plain s => (s, ([] : List String))
      | .matched m => doReplace r path tm m
    let tail := reSub r path tm rest
    (head.1 ++ tail.1, head.2 ++ tail.2)

/-- `EzLinksReplacer.replace` (lines 28-35): build the per-document target
map, then run the substitution pass. Returns the rewritten document and the
accumulated debug log. -/
def replace (r : EzLinksReplacer) (path markdown : String) : String × List String :=
  let bt := buildTargetMap r path (r.findTargets markdown)
  let rs := reSub r path bt.1 (r.tokenize markdown)
  (rs.1, bt.2 ++ rs.2)

/-! ### Shared helper lemmas -/

theorem strData_append (a b : String) : (a ++ b).data = a.data ++ b.data := by
  cases a
  cases b
  rfl

theorem strAppend_assoc (a b c : String) : a ++ b ++ c = a ++ (b ++ c) := by
  cases a
  cases b
  cases c
  exact congrArg String.mk (List.append_assoc _ _ _)

theorem reSub_fst_append (r : EzLinksReplacer) (path : String) (tm : TargetMap)
    (a b : List Seg) :
    (reSub r path tm (a ++ b)).1 = (reSub r path tm a).1 ++ (reSub r path tm b).1 := by
  induction a with
  | nil =>
    simp [reSub]
  | cons seg rest ih =>
    simp only [List.cons_append, reSub, List.append_eq]
    rw [ih, strAppend_assoc]

theorem scanLoop_of_no_claim (r : EzLinksReplacer) (path abs_from : String)
    (tm : TargetMap) (m : String) (scs : List Scanner)
    (h : ∀ sc ∈ scs, sc.claims m = false) :
    scanLoop r path abs_from tm m scs = .ok none := by
  induction scs with
  | nil => rfl
  | cons sc rest ih =>
    have hsc : sc.claims m = false := h sc (List.mem_cons_self sc rest)
    simp only [scanLoop, hsc, Bool.false_eq_true, if_false]
    exact ih (fun s hs => h s (List.mem_cons_of_mem sc hs))

theorem strAppend_empty (a : String) : a ++ "" = a := by
  cases a
  exact congrArg String.mk (List.append_nil _)

/-- Unfolding of `_do_replace` on the target-map-hit path: the first
claiming scanner extracts a link with a non-empty target that is a key of
the target map, and the stored definition is rendered with its title as the
visible text. -/
theorem doReplace_map_hit (r : EzLinksReplacer) (path : String) (tm : TargetMap)
    (sc : Scanner) (rest : List Scanner) (link : Link) (m : String) (d : Link)
    (hs : r.scanners = sc :: rest) (hm : sc.claims m = true)
    (he : sc.extract m = some link) (ht : link.target ≠ "")
    (hf : tmFind tm link.target = some d) :
    doReplace r path tm m = (d.render true, []) := by
  unfold doReplace
  rw [hs]
  simp only [scanLoop, hm, if_true, he, doReplaceLink]
  rw [if_neg ht, hf]
  rfl

/-- Unfolding of `_do_replace` on the self-anchor path: empty target,
non-empty anchor. -/
theorem doReplace_self_anchor (r : EzLinksReplacer) (path : String) (tm : TargetMap)
    (sc : Scanner) (rest : List Scanner) (link : Link) (m : String)
    (hs : r.scanners = sc :: rest) (hm : sc.claims m = true)
    (he : sc.extract m = some link) (ht : link.target = "") (ha : link.anchor ≠ "") :
    doReplace r path tm m
      = (finalRender (dirname (pathJoin r.root path))
          { link with target := pathJoin r.root path }, []) := by
  unfold doReplace
  rw [hs]
  simp only [scanLoop, hm, if_true, he, doReplaceLink]
  rw [if_pos ht, if_neg ha]
  rfl

/-- Unfolding of `_do_replace` on the location-index path: non-empty target
not in the target map, with a non-empty (post-massaging) search result. -/
theorem doReplace_index_path (r : EzLinksReplacer) (path : String) (tm : TargetMap)
    (sc : Scanner) (rest : List Scanner) (link : Link) (m : String)
    (hs : r.scanners = sc :: rest) (hm : sc.claims m = true)
    (he : sc.extract m = some link) (ht : link.target ≠ "")
    (hf : tmFind tm link.target = none)
    (hns : massageSearchResult r.use_directory_urls (r.search path link.target) ≠ "") :
    doReplace r path tm m
      = (finalRender (dirname (pathJoin r.root path))
          { link with
            target := massageSearchResult r.use_directory_urls (r.search path link.target) },
        []) := by
  unfold doReplace
  rw [hs]
  simp only [scanLoop, hm, if_true, he, doReplaceLink, if_neg ht, hf]
  rw [if_neg hns]
  rfl

theorem reSub_fst_of_verbatim (r : EzLinksReplacer) (path : String) (tm : TargetMap)
    (segs : List Seg)
    (h : ∀ m, Seg.matched m ∈ segs → (doReplace r path tm m).1 = m) :
    (reSub r path tm segs).1 = concatSegs segs := by
  induction segs with
  | nil => rfl
  | cons seg rest ih =>
    have tail := ih (fun m hm => h m (List.mem_cons_of_mem seg hm))
    cases seg with
    | plain s =>
      simp only [reSub, concatSegs, segText]
      rw [tail]
    | matched m =>
      have head := h m (List.mem_cons_self _ rest)
      simp only [reSub, concatSegs, segText]
      rw [head, tail]

end EzLinks

namespace EzLinks

-- Sanity checks of the stdlib models on the spec's worked example.
example : relpath "/docs/c/target-page.md" (dirname (pathJoin "/docs" "a/b.md")) =
    "../c/target-page.md" := by decide
example : relpath "/r/a/b.md" "/r/a" = "b.md" := by decide
example : quote "my page.md" = "my%20page.md" := by decide
example : dirname "/r/a/b.md" = "/r/a" := by decide
example : normpath "/a/./b/../c" = "/a/c" := by decide

/-! ### Claim C1 -/

/-- C1: any Broken-Link raised while processing a single match of the
replacement pass is caught within that match, logged at debug severity, and
the original matched text is emitted unchanged in its place; the
substitution pass continues with the rest of the document (the other
segments are processed exactly as they would be on their own), and `replace`
never surfaces a Broken-Link to its caller (it is total, returning the
rewritten text and the debug log). -/
theorem c1_broken_link_caught_per_match
    (r : EzLinksReplacer) (path text m e : String) (pre post : List Seg)
    (herr : scanLoop r path (dirname (pathJoin r.root path))
        (buildTargetMap r path (r.findTargets text)).1 m r.scanners = .error e)
    (htok : r.tokenize text = pre ++ Seg.matched m :: post) :
    doReplace r path (buildTargetMap r path (r.findTargets text)).1 m
        = (m, ["[EzLinks] " ++ e]) ∧
    (replace r path text).1
      = (reSub r path (buildTargetMap r path (r.findTargets text)).1 pre).1 ++ m
        ++ (reSub r path (buildTargetMap r path (r.findTargets text)).1 post).1 := by
  have hdo : doReplace r path (buildTargetMap r path (r.findTargets text)).1 m
      = (m, ["[EzLinks] " ++ e]) := by
    unfold doReplace
    rw [herr]
  refine ⟨hdo, ?_⟩
  show (reSub r path (buildTargetMap r path (r.findTargets text)).1 (r.tokenize text)).1 = _
  rw [htok, reSub_fst_append]
  simp only [reSub, hdo]
  rw [strAppend_assoc]

/-- A concrete replacer whose single scanner claims every match but fails
extraction, used to exercise the Broken-Link handler. -/
def c1Env : EzLinksReplacer :=
  { root := "/r", search := fun _ _ => "", use_directory_urls := true,
    scanners := [⟨fun _ => true, fun _ => none⟩], target_scanners := [],
    tokenize := fun _ => [Seg.plain "a ", Seg.matched "[[x]]", Seg.plain " b"],
    findTargets := fun _ => [] }

theorem c1_witness :
    (scanLoop c1Env "d.md" (dirname (pathJoin c1Env.root "d.md"))
        (buildTargetMap c1Env "d.md" (c1Env.findTargets "a [[x]] b")).1 "[[x]]"
        c1Env.scanners
      = .error "Could not extract link from [[x]]") ∧
    (c1Env.tokenize "a [[x]] b"
      = [Seg.plain "a "] ++ Seg.matched "[[x]]" :: [Seg.plain " b"]) ∧
    doReplace c1Env "d.md" (buildTargetMap c1Env "d.md" (c1Env.findTargets "a [[x]] b")).1
        "[[x]]"
      = ("[[x]]", ["[EzLinks] Could not extract link from [[x]]"]) :=
  ⟨by rfl, by rfl,
    (c1_broken_link_caught_per_match c1Env "d.md" "a [[x]] b" "[[x]]"
      "Could not extract link from [[x]]" [Seg.plain "a "] [Seg.plain " b"]
      (by rfl) (by rfl)).1⟩

/-! ### Claim C3 -/

/-- C3: text inside a triple-backtick fenced region or single-backtick
inline code span is matched by the code-fence alternatives of the combined
pattern, so its named scanner groups are unset and no recognizer claims it;
such a match is emitted byte-for-byte unchanged (with no debug log), and the
whole document's output keeps that span verbatim in place. -/
theorem c3_code_spans_verbatim
    (r : EzLinksReplacer) (path text m : String) (pre post : List Seg)
    (hcode : ∀ sc ∈ r.scanners, sc.claims m = false)
    (htok : r.tokenize text = pre ++ Seg.matched m :: post) :
    doReplace r path (buildTargetMap r path (r.findTargets text)).1 m = (m, []) ∧
    (replace r path text).1
      = (reSub r path (buildTargetMap r path (r.findTargets text)).1 pre).1 ++ m
        ++ (reSub r path (buildTargetMap r path (r.findTargets text)).1 post).1 := by
  have hdo : doReplace r path (buildTargetMap r path (r.findTargets text)).1 m
      = (m, []) := by
    unfold doReplace
    rw [scanLoop_of_no_claim r path (dirname (pathJoin r.root path)) _ m r.scanners hcode]
  refine ⟨hdo, ?_⟩
  show (reSub r path (buildTargetMap r path (r.findTargets text)).1 (r.tokenize text)).1 = _
  rw [htok, reSub_fst_append]
  simp only [reSub, hdo]
  rw [strAppend_assoc]

/-- A concrete replacer whose single scanner claims exactly the span
`[[x]]`, declining the inline code span in the test document. -/
def c3Env : EzLinksReplacer :=
  { root := "/r", search := fun _ _ => "/r/x.md", use_directory_urls := true,
    scanners := [⟨fun s => s == "[[x]]", fun _ => some ⟨false, "x", "x", "", ""⟩⟩],
    target_scanners := [],
    tokenize := fun _ => [Seg.plain "a ", Seg.matched "`[[not a link]]`", Seg.plain " b"],
    findTargets := fun _ => [] }

theorem c3_witness :
    (∀ sc ∈ c3Env.scanners, sc.claims "`[[not a link]]`" = false) ∧
    (c3Env.tokenize "a `[[not a link]]` b"
      = [Seg.plain "a "] ++ Seg.matched "`[[not a link]]`" :: [Seg.plain " b"]) ∧
    doReplace c3Env "d.md"
        (buildTargetMap c3Env "d.md" (c3Env.findTargets "a `[[not a link]]` b")).1
        "`[[not a link]]`"
      = ("`[[not a link]]`", []) :=
  ⟨fun sc hsc => by
      simp only [c3Env, List.mem_singleton] at hsc
      subst hsc
      rfl,
    by rfl,
    (c3_code_spans_verbatim c3Env "d.md" "a `[[not a link]]` b" "`[[not a link]]`"
      [Seg.plain "a "] [Seg.plain " b"]
      (fun sc hsc => by
        simp only [c3Env, List.mem_singleton] at hsc
        subst hsc
        rfl)
      (by rfl)).1⟩

/-! ### Claim C9 -/

/-- C9: if every matched occurrence of a document is emitted as its
original matched text (all unresolvable), then the output equals the input,
so applying `replace` a second time with the same document path yields
exactly the same text as applying it once. -/
theorem c9_replace_idempotent_on_unresolved
    (r : EzLinksReplacer) (path text : String)
    (hunres : ∀ m, Seg.matched m ∈ r.tokenize text →
      (doReplace r path (buildTargetMap r path (r.findTargets text)).1 m).1 = m)
    (hseg : concatSegs (r.tokenize text) = text) :
    (replace r path ((replace r path text).1)).1 = (replace r path text).1 := by
  have hout : (replace r path text).1 = text := by
    show (reSub r path (buildTargetMap r path (r.findTargets text)).1 (r.tokenize text)).1
        = text
    rw [reSub_fst_of_verbatim r path _ _ hunres, hseg]
  rw [hout]
  exact hout

/-- A concrete replacer where the single occurrence is unresolvable: the
scanner extracts target `x`, the file map reports not-found, and directory
URLs are on, so the Broken-Link handler emits the original text. -/
def c9Env : EzLinksReplacer :=
  { root := "/r", search := fun _ _ => "", use_directory_urls := true,
    scanners := [⟨fun _ => true, fun _ => some ⟨false, "x", "x", "", ""⟩⟩],
    target_scanners := [],
    tokenize := fun _ => [Seg.plain "a ", Seg.matched "[[x]]"],
    findTargets := fun _ => [] }

theorem c9_witness :
    (∀ m, Seg.matched m ∈ c9Env.tokenize "a [[x]]" →
      (doReplace c9Env "d.md"
        (buildTargetMap c9Env "d.md" (c9Env.findTargets "a [[x]]")).1 m).1 = m) ∧
    concatSegs (c9Env.tokenize "a [[x]]") = "a [[x]]" ∧
    (replace c9Env "d.md" ((replace c9Env "d.md" "a [[x]]").1)).1
      = (replace c9Env "d.md" "a [[x]]").1 :=
  ⟨fun m hm => by
      simp only [c9Env, Seg.matched.injEq, List.mem_cons, List.not_mem_nil, or_false,
        reduceCtorEq, false_or] at hm
      subst hm
      rfl,
    by rfl,
    c9_replace_idempotent_on_unresolved c9Env "d.md" "a [[x]]"
      (fun m hm => by
        simp only [c9Env, Seg.matched.injEq, List.mem_cons, List.not_mem_nil, or_false,
          reduceCtorEq, false_or] at hm
        subst hm
        rfl)
      (by rfl)⟩

/-! ### Claim C4 -/

/-- A concrete replacer whose scanner extracts a reference-style occurrence
whose own text (`label`) differs from its target (`ref1`). -/
def c4Env : EzLinksReplacer :=
  { root := "/r", search := fun _ _ => "", use_directory_urls := true,
    scanners := [⟨fun _ => true, fun _ => some ⟨false, "label", "ref1", "", ""⟩⟩],
    target_scanners := [], tokenize := fun _ => [], findTargets := fun _ => [] }

/-- C4 counterexample: the occurrence `[label][ref1]` has its own text
`label`; the stored definition for `ref1` has an empty title and text
`ref1`. The emitted replacement is `[ref1](T)` — its visible label is the
definition's text, not the occurrence's own original text `label`. -/
theorem c4_counterexample :
    (doReplace c4Env "d.md" [("ref1", ⟨false, "ref1", "T", "", ""⟩)] "[label][ref1]").1
      = "[ref1](T)" ∧
    "[ref1](T)" ≠ "[label](T)" := by
  exact ⟨by rfl, by decide⟩

/-- C4 (amended): for an occurrence whose non-empty target is a key of the
target map, the emitted replacement's visible label equals the stored
definition's title when that title is non-empty, and otherwise equals the
definition's own text (which is the map key, i.e. the occurrence's target)
— not the occurrence's own original text. -/
theorem c4_map_hit_label (r : EzLinksReplacer) (path : String) (tm : TargetMap)
    (sc : Scanner) (rest : List Scanner) (link : Link) (m : String) (d : Link)
    (hs : r.scanners = sc :: rest) (hm : sc.claims m = true)
    (he : sc.extract m = some link) (ht : link.target ≠ "")
    (hf : tmFind tm link.target = some d) :
    (doReplace r path tm m).1 = d.render true ∧
    (d.title ≠ "" → d.render true
      = (if d.image then "!" else "") ++ "[" ++ d.title ++ "](" ++ d.target
        ++ (if d.anchor = "" then "" else "#" ++ d.anchor) ++ ")") ∧
    (d.title = "" → d.render true
      = (if d.image then "!" else "") ++ "[" ++ d.text ++ "](" ++ d.target
        ++ (if d.anchor = "" then "" else "#" ++ d.anchor) ++ ")") := by
  refine ⟨?_, ?_, ?_⟩
  · rw [doReplace_map_hit r path tm sc rest link m d hs hm he ht hf]
  · intro hd
    simp [Link.render, hd]
  · intro hd
    simp [Link.render, hd, strAppend_empty]

theorem c4_witness :
    (c4Env.scanners = (⟨fun _ => true, fun _ => some ⟨false, "label", "ref1", "", ""⟩⟩
        : Scanner) :: []) ∧
    ((⟨fun _ => true, fun _ => some ⟨false, "label", "ref1", "", ""⟩⟩
        : Scanner).claims "[label][ref1]" = true) ∧
    ((⟨fun _ => true, fun _ => some ⟨false, "label", "ref1", "", ""⟩⟩
        : Scanner).extract "[label][ref1]" = some ⟨false, "label", "ref1", "", ""⟩) ∧
    ((⟨false, "label", "ref1", "", ""⟩ : Link).target ≠ "") ∧
    (tmFind [("ref1", ⟨false, "ref1", "T", "", "My Title"⟩)] "ref1"
      = some ⟨false, "ref1", "T", "", "My Title"⟩) ∧
    (doReplace c4Env "d.md" [("ref1", ⟨false, "ref1", "T", "", "My Title"⟩)]
        "[label][ref1]").1
      = (⟨false, "ref1", "T", "", "My Title"⟩ : Link).render true :=
  ⟨by rfl, by rfl, by rfl, by decide, by rfl,
    (c4_map_hit_label c4Env "d.md" [("ref1", ⟨false, "ref1", "T", "", "My Title"⟩)]
      ⟨fun _ => true, fun _ => some ⟨false, "label", "ref1", "", ""⟩⟩ []
      ⟨false, "label", "ref1", "", ""⟩ "[label][ref1]"
      ⟨false, "ref1", "T", "", "My Title"⟩
      (by rfl) (by rfl) (by rfl) (by decide) (by rfl)).1⟩

/-! ### Claim C10 -/

/-- C10: for an occurrence whose non-empty target is a key of the target
map, the emitted replacement is rendered entirely from the stored
definition Link — its image flag, title-or-text label, resolved relative
target and anchor; the occurrence's own text, anchor, title and image flag
do not appear, and the emitted target is the definition's stored target
verbatim, with no percent-encoding applied. -/
theorem c10_map_hit_renders_definition (r : EzLinksReplacer) (path : String)
    (tm : TargetMap) (sc : Scanner) (rest : List Scanner) (link : Link) (m : String)
    (d : Link)
    (hs : r.scanners = sc :: rest) (hm : sc.claims m = true)
    (he : sc.extract m = some link) (ht : link.target ≠ "")
    (hf : tmFind tm link.target = some d) :
    doReplace r path tm m
      = ((if d.image then "!" else "") ++ "["
          ++ (if d.title = "" then d.text else d.title) ++ "](" ++ d.target
          ++ (if d.anchor = "" then "" else "#" ++ d.anchor) ++ ")", []) := by
  rw [doReplace_map_hit r path tm sc rest link m d hs hm he ht hf]
  by_cases hd : d.title = ""
  · simp [Link.render, hd, strAppend_empty]
  · simp [Link.render, hd, strAppend_empty]

theorem c10_witness :
    (c4Env.scanners = (⟨fun _ => true, fun _ => some ⟨false, "label", "ref1", "", ""⟩⟩
        : Scanner) :: []) ∧
    ((⟨false, "label", "ref1", "", ""⟩ : Link).target ≠ "") ∧
    (tmFind [("ref1", ⟨false, "ref1", "my page.md", "sec", "t"⟩)] "ref1"
      = some ⟨false, "ref1", "my page.md", "sec", "t"⟩) ∧
    doReplace c4Env "d.md" [("ref1", ⟨false, "ref1", "my page.md", "sec", "t"⟩)]
        "[label][ref1]"
      = ("[t](my page.md#sec)", []) :=
  ⟨by rfl, by decide, by rfl,
    c10_map_hit_renders_definition c4Env "d.md"
      [("ref1", ⟨false, "ref1", "my page.md", "sec", "t"⟩)]
      ⟨fun _ => true, fun _ => some ⟨false, "label", "ref1", "", ""⟩⟩ []
      ⟨false, "label", "ref1", "", ""⟩ "[label][ref1]"
      ⟨false, "ref1", "my page.md", "sec", "t"⟩
      (by rfl) (by rfl) (by rfl) (by decide) (by rfl)⟩

/-! ### Claim C5 -/

/-- A concrete replacer whose scanner extracts a pure-anchor occurrence
(empty target, anchor `sec`) for a document at `a/b.md` under root `/r`. -/
def c5Env : EzLinksReplacer :=
  { root := "/r", search := fun _ _ => "", use_directory_urls := true,
    scanners := [⟨fun _ => true, fun _ => some ⟨false, "t", "", "sec", ""⟩⟩],
    target_scanners := [], tokenize := fun _ => [], findTargets := fun _ => [] }

/-- C5 counterexample: for the document `a/b.md` under root `/r`, the
occurrence with empty target and anchor `sec` is rewritten to
`[t](b.md#sec)` — the target is the document's own filename `b.md`
(`relpath(join(root, path), dirname(join(root, path)))`), not the empty
relative path and not `.`. -/
theorem c5_counterexample :
    (doReplace c5Env "a/b.md" [] "[[#sec]]").1 = "[t](b.md#sec)" ∧
    "[t](b.md#sec)" ≠ "[t](#sec)" ∧
    "[t](b.md#sec)" ≠ "[t](.#sec)" := by
  exact ⟨by rfl, by decide, by decide⟩

/-- C5 (amended): an occurrence with empty target and non-empty anchor has
its target set to the current document's absolute path, which the common
tail makes relative to the document's own directory and percent-encodes:
the emitted target is
`quote(relpath(join(root, path), dirname(join(root, path))))` — the
document's own filename (e.g. `b.md`, not the empty path and not `.`) —
followed by `#` and the anchor, still pointing at the current document. -/
theorem c5_self_anchor (r : EzLinksReplacer) (path : String) (tm : TargetMap)
    (sc : Scanner) (rest : List Scanner) (link : Link) (m : String)
    (hs : r.scanners = sc :: rest) (hm : sc.claims m = true)
    (he : sc.extract m = some link) (ht : link.target = "") (ha : link.anchor ≠ "") :
    doReplace r path tm m
      = (({ link with
            target := quote (relpath (pathJoin r.root path)
              (dirname (pathJoin r.root path))) } : Link).render false, []) := by
  rw [doReplace_self_anchor r path tm sc rest link m hs hm he ht ha]
  rfl

theorem c5_witness :
    (c5Env.scanners = (⟨fun _ => true, fun _ => some ⟨false, "t", "", "sec", ""⟩⟩
        : Scanner) :: []) ∧
    ((⟨false, "t", "", "sec", ""⟩ : Link).target = "") ∧
    ((⟨false, "t", "", "sec", ""⟩ : Link).anchor ≠ "") ∧
    doReplace c5Env "a/b.md" [] "[[#sec]]"
      = (({ (⟨false, "t", "", "sec", ""⟩ : Link) with
            target := quote (relpath (pathJoin c5Env.root "a/b.md")
              (dirname (pathJoin c5Env.root "a/b.md"))) } : Link).render false, []) :=
  ⟨by rfl, by rfl, by decide,
    c5_self_anchor c5Env "a/b.md" []
      ⟨fun _ => true, fun _ => some ⟨false, "t", "", "sec", ""⟩⟩ []
      ⟨false, "t", "", "sec", ""⟩ "[[#sec]]"
      (by rfl) (by rfl) (by rfl) (by rfl) (by decide)⟩

/-! ### Claim C6 -/

/-- Modelled from the spec: whether a path "carries an explicit file
extension" — its final path component has a dot introducing a suffix after
a non-dot prefix (the usual `os.path.splitext` notion: leading dots of the
basename do not count). This is the spec's notion, stated for comparison
with what the code actually tests. -/
def specHasExtension (p : String) : Bool :=
  let base := ((splitSlash p).getLast?).getD ""
  containsChar (String.mk (base.data.dropWhile (· = '.'))) '.'

theorem strAppend_md_ne_empty (s : String) : s ++ ".md" ≠ "" := by
  intro h
  have h2 := congrArg String.data h
  rw [strData_append] at h2
  have h3 := (List.append_eq_nil.mp h2).2
  exact absurd h3 (by decide)

/-- A concrete replacer for the extension-massaging claims: directory URLs
are off and the file map resolves target `x` to `/r/v1.2/page` — a path
with a dot in a directory name but no file extension. -/
def c6Env : EzLinksReplacer :=
  { root := "/r", search := fun _ _ => "/r/v1.2/page", use_directory_urls := false,
    scanners := [⟨fun _ => true, fun _ => some ⟨false, "x", "x", "", ""⟩⟩],
    target_scanners := [], tokenize := fun _ => [], findTargets := fun _ => [] }

/-- C6 counterexample: with directory URLs disabled, the resolved path
`/r/v1.2/page` carries no file extension, yet the code leaves it unchanged
(no `.md` appended), because the code tests for a dot anywhere in the path
(`"." not in search_result`), and the directory name `v1.2` contains one.
The document-level run emits `[x](v1.2/page)`, without `.md`. -/
theorem c6_counterexample :
    massageSearchResult false "/r/v1.2/page" = "/r/v1.2/page" ∧
    specHasExtension "/r/v1.2/page" = false ∧
    "/r/v1.2/page" ≠ "/r/v1.2/page" ++ ".md" ∧
    (doReplace c6Env "d.md" [] "[[x]]").1 = "[x](v1.2/page)" := by
  exact ⟨by rfl, by rfl, by decide, by rfl⟩

/-- C6 (amended): when directory URLs are disabled, for a target resolved
through the location index the suffix `.md` is appended exactly when the
resolved path contains no dot character anywhere (not: when it carries no
file extension); a path with a dot anywhere — even only in a directory
name — is left unchanged. -/
theorem c6_md_appended_iff_no_dot (r : EzLinksReplacer) (path : String)
    (tm : TargetMap) (sc : Scanner) (rest : List Scanner) (link : Link) (m s0 : String)
    (hs : r.scanners = sc :: rest) (hm : sc.claims m = true)
    (he : sc.extract m = some link) (ht : link.target ≠ "")
    (hf : tmFind tm link.target = none)
    (hu : r.use_directory_urls = false)
    (hsr : r.search path link.target = s0) (hs0 : s0 ≠ "") :
    (containsChar s0 '.' = false →
      doReplace r path tm m
        = (finalRender (dirname (pathJoin r.root path))
            { link with target := s0 ++ ".md" }, [])) ∧
    (containsChar s0 '.' = true →
      doReplace r path tm m
        = (finalRender (dirname (pathJoin r.root path))
            { link with target := s0 }, [])) := by
  constructor
  · intro hdot
    have hmass : massageSearchResult r.use_directory_urls (r.search path link.target)
        = s0 ++ ".md" := by
      rw [hu, hsr]
      simp [massageSearchResult, hdot]
    have happ := doReplace_index_path r path tm sc rest link m hs hm he ht hf
      (by rw [hmass]; exact strAppend_md_ne_empty s0)
    rw [hmass] at happ
    exact happ
  · intro hdot
    have hmass : massageSearchResult r.use_directory_urls (r.search path link.target)
        = s0 := by
      rw [hu, hsr]
      simp [massageSearchResult, hdot]
    have happ := doReplace_index_path r path tm sc rest link m hs hm he ht hf
      (by rw [hmass]; exact hs0)
    rw [hmass] at happ
    exact happ

/-- A concrete replacer with directory URLs off and a dot-free resolved
path, to witness the appending case. -/
def c6EnvB : EzLinksReplacer :=
  { root := "/r", search := fun _ _ => "/r/target-page", use_directory_urls := false,
    scanners := [⟨fun _ => true, fun _ => some ⟨false, "x", "x", "", ""⟩⟩],
    target_scanners := [], tokenize := fun _ => [], findTargets := fun _ => [] }

theorem c6_witness :
    (c6EnvB.scanners = (⟨fun _ => true, fun _ => some ⟨false, "x", "x", "", ""⟩⟩
        : Scanner) :: []) ∧
    ((⟨false, "x", "x", "", ""⟩ : Link).target ≠ "") ∧
    (c6EnvB.use_directory_urls = false) ∧
    (c6EnvB.search "d.md" "x" = "/r/target-page") ∧
    ("/r/target-page" ≠ "") ∧
    (containsChar "/r/target-page" '.' = false →
      doReplace c6EnvB "d.md" [] "[[x]]"
        = (finalRender (dirname (pathJoin c6EnvB.root "d.md"))
            { (⟨false, "x", "x", "", ""⟩ : Link) with target := "/r/target-page" ++ ".md" },
          [])) :=
  ⟨by rfl, by decide, by rfl, by rfl, by decide,
    (c6_md_appended_iff_no_dot c6EnvB "d.md" []
      ⟨fun _ => true, fun _ => some ⟨false, "x", "x", "", ""⟩⟩ []
      ⟨false, "x", "x", "", ""⟩ "[[x]]" "/r/target-page"
      (by rfl) (by rfl) (by rfl) (by decide) (by rfl) (by rfl) (by rfl) (by decide)).1⟩

/-! ### Claim C2 -/

/-- A concrete replacer exhibiting the swallowed not-found: directory URLs
are off and the file map reports not-found (empty string) for every
target. -/
def c2Env : EzLinksReplacer :=
  { root := "/r", search := fun _ _ => "", use_directory_urls := false,
    scanners := [⟨fun _ => true, fun _ => some ⟨false, "x", "x", "", ""⟩⟩],
    target_scanners := [⟨fun _ => true, fun _ => some ⟨false, "x", "x", "", ""⟩⟩],
    tokenize := fun _ => [], findTargets := fun _ => [] }

/-- C2 failing run: with directory URLs disabled, the empty (not-found)
search result is massaged to `.md` *before* the `if not search_result`
check, so no Broken-Link is raised: in the replacement pass nothing is
logged and the occurrence is rewritten (not emitted verbatim), and in the
target-map pre-pass the definition is inserted (not omitted) with the bogus
target, again with nothing logged. -/
theorem c2_not_found_swallowed_when_dir_urls_off :
    massageSearchResult false "" = ".md" ∧
    (doReplace c2Env "d.md" [] "[[x]]").2 = [] ∧
    (doReplace c2Env "d.md" [] "[[x]]").1 ≠ "[[x]]" ∧
    tmFind (buildTargetMap c2Env "d.md" ["[x]: x"]).1 "x" ≠ none ∧
    (buildTargetMap c2Env "d.md" ["[x]: x"]).2 = [] := by
  exact ⟨by rfl, by rfl, by decide, by decide, by rfl⟩

/-! ### Claim C8 -/

/-- A concrete replacer with two definition recognizers that both claim the
same match, extracting links with the same text key `k` but different
targets. -/
def c8Env : EzLinksReplacer :=
  { root := "/r", search := fun _ t => "/r/" ++ t, use_directory_urls := true,
    scanners := [],
    target_scanners :=
      [⟨fun _ => true, fun _ => some ⟨false, "k", "t1", "", ""⟩⟩,
       ⟨fun _ => true, fun _ => some ⟨false, "k", "t2", "", ""⟩⟩],
    tokenize := fun _ => [], findTargets := fun _ => [] }

/-- C8 counterexample: both definition recognizers claim the match; the
inner loop of `_build_target_map` has no break, so the second recognizer
also runs and its insertion overwrites the first one's for the shared key
`k`: the map ends up holding the second recognizer's link (resolved target
`t2`), so the later recognizer *is* used for the match. -/
theorem c8_counterexample :
    tmFind (buildTargetMap c8Env "d.md" ["m"]).1 "k"
      = some ⟨false, "k", "t2", "", ""⟩ ∧
    some (⟨false, "k", "t2", "", ""⟩ : Link) ≠ some ⟨false, "k", "t1", "", ""⟩ := by
  exact ⟨by rfl, by decide⟩

/-- C8 (amended): in the target-map pre-pass the inner loop has no break:
every definition recognizer that claims the match is consulted in
registration order and every one of them inserts its link into the map
(processing stops early only when a claiming recognizer raises
Broken-Link). For two claiming recognizers whose resolved links share the
same text key, the later recognizer's insertion shadows the earlier one's,
so the map serves the *last* claiming recognizer's link, not the first. -/
theorem c8_later_def_scanner_overwrites (r : EzLinksReplacer) (path m : String)
    (s1 s2 : Scanner) (l1 l2 l1x l2x : Link) (tm0 : TargetMap)
    (hts : r.target_scanners = [s1, s2])
    (h1 : s1.claims m = true) (e1 : s1.extract m = some l1)
    (h2 : s2.claims m = true) (e2 : s2.extract m = some l2)
    (r1 : resolveDefinition r path (dirname (pathJoin r.root path)) l1 m = .ok l1x)
    (r2 : resolveDefinition r path (dirname (pathJoin r.root path)) l2 m = .ok l2x)
    (hk : l2x.text = l1x.text) :
    processDefScanners r path (dirname (pathJoin r.root path)) m r.target_scanners tm0
      = (tmInsert (tmInsert tm0 l1x.text l1x) l2x.text l2x, none) ∧
    tmFind (processDefScanners r path (dirname (pathJoin r.root path)) m
        r.target_scanners tm0).1 l1x.text
      = some l2x := by
  have hrun : processDefScanners r path (dirname (pathJoin r.root path)) m
      r.target_scanners tm0
      = (tmInsert (tmInsert tm0 l1x.text l1x) l2x.text l2x, none) := by
    rw [hts]
    simp only [processDefScanners, h1, if_true, e1, r1, h2, e2, r2]
  refine ⟨hrun, ?_⟩
  rw [hrun]
  have hbeq : (l2x.text == l1x.text) = true := by
    rw [hk]
    exact beq_self_eq_true _
  simp [tmFind, tmInsert, List.find?, hbeq]

theorem c8_witness :
    (c8Env.target_scanners
      = [(⟨fun _ => true, fun _ => some ⟨false, "k", "t1", "", ""⟩⟩ : Scanner),
         ⟨fun _ => true, fun _ => some ⟨false, "k", "t2", "", ""⟩⟩]) ∧
    (resolveDefinition c8Env "d.md" (dirname (pathJoin c8Env.root "d.md"))
        ⟨false, "k", "t1", "", ""⟩ "m" = .ok ⟨false, "k", "t1", "", ""⟩) ∧
    (resolveDefinition c8Env "d.md" (dirname (pathJoin c8Env.root "d.md"))
        ⟨false, "k", "t2", "", ""⟩ "m" = .ok ⟨false, "k", "t2", "", ""⟩) ∧
    tmFind (processDefScanners c8Env "d.md" (dirname (pathJoin c8Env.root "d.md")) "m"
        c8Env.target_scanners []).1 "k"
      = some ⟨false, "k", "t2", "", ""⟩ :=
  ⟨by rfl, by rfl, by rfl,
    (c8_later_def_scanner_overwrites c8Env "d.md" "m"
      ⟨fun _ => true, fun _ => some ⟨false, "k", "t1", "", ""⟩⟩
      ⟨fun _ => true, fun _ => some ⟨false, "k", "t2", "", ""⟩⟩
      ⟨false, "k", "t1", "", ""⟩ ⟨false, "k", "t2", "", ""⟩
      ⟨false, "k", "t1", "", ""⟩ ⟨false, "k", "t2", "", ""⟩ []
      (by rfl) (by rfl) (by rfl) (by rfl) (by rfl) (by rfl) (by rfl) (by rfl)).2⟩

/-! ### Claim C7 -/

theorem charToNat_ofNat (n : Nat) (h : n.isValidChar) : (Char.ofNat n).toNat = n := by
  rw [Char.ofNat, dif_pos h]
  rfl

theorem ofNat_ne_space (n : Nat) (hv : n.isValidChar) (hn : n ≠ 32) :
    Char.ofNat n ≠ ' ' := by
  intro h
  apply hn
  have h2 := congrArg Char.toNat h
  rwa [charToNat_ofNat n hv] at h2

theorem hexUpper_ne_space (m : Nat) (hm : m < 16) : hexUpper m ≠ ' ' := by
  unfold hexUpper
  by_cases h : m < 10
  · rw [if_pos h]
    exact ofNat_ne_space _ (Or.inl (by omega)) (by omega)
  · rw [if_neg h]
    exact ofNat_ne_space _ (Or.inl (by omega)) (by omega)

theorem unreserved_bounds (b : Nat) (h : isUnreservedByte b = true) :
    b < 0xD800 ∧ b ≠ 32 := by
  simp [isUnreservedByte] at h
  omega

theorem space_not_mem_quoteByte (b : Nat) (hb : b < 256) : ' ' ∉ quoteByte b := by
  unfold quoteByte
  by_cases h : isUnreservedByte b
  · rw [if_pos h]
    intro hmem
    rw [List.mem_singleton] at hmem
    have hbd := unreserved_bounds b h
    exact ofNat_ne_space b (Or.inl hbd.1) hbd.2 hmem.symm
  · rw [if_neg h]
    intro hmem
    rcases List.mem_cons.mp hmem with h1 | hmem2
    · exact absurd h1 (by decide)
    rcases List.mem_cons.mp hmem2 with h2 | hmem3
    · exact hexUpper_ne_space (b / 16) (by omega) h2.symm
    rcases List.mem_cons.mp hmem3 with h3 | hmem4
    · exact hexUpper_ne_space (b % 16) (by omega) h3.symm
    · exact absurd hmem4 (List.not_mem_nil _)

theorem utf8Bytes_lt (c : Char) : ∀ b ∈ utf8Bytes c, b < 256 := by
  intro b hb
  have hc : c.toNat < 0x110000 := by
    have h := c.valid
    unfold Char.toNat
    rcases h with h | h
    · omega
    · omega
  unfold utf8Bytes at hb
  dsimp only at hb
  split at hb
  · simp at hb
    omega
  · split at hb
    · simp at hb
      omega
    · split at hb
      · simp at hb
        omega
      · simp at hb
        omega

theorem space_not_mem_quoteChar (c : Char) : ' ' ∉ quoteChar c := by
  unfold quoteChar
  intro h
  rw [List.mem_flatMap] at h
  obtain ⟨b, hb, hmem⟩ := h
  exact space_not_mem_quoteByte b (utf8Bytes_lt c b hb) hmem

theorem space_not_mem_quoteList (l : List Char) : ' ' ∉ quoteList l := by
  induction l with
  | nil => exact List.not_mem_nil _
  | cons c cs ih =>
    intro h
    rcases List.mem_append.mp h with h1 | h2
    · exact space_not_mem_quoteChar c h1
    · exact ih h2

theorem quoteList_append (a b : List Char) :
    quoteList (a ++ b) = quoteList a ++ quoteList b := by
  induction a with
  | nil => rfl
  | cons c cs ih =>
    simp only [List.cons_append, quoteList, List.append_eq, ih, List.append_assoc]

theorem quote_data (s : String) : (quote s).data = quoteList s.data := rfl

theorem space_percent_infix (l : List Char) (h : ' ' ∈ l) :
    ['%', '2', '0'] <:+: quoteList l := by
  obtain ⟨a, b, rfl⟩ := List.append_of_mem h
  refine ⟨quoteList a, quoteList b, ?_⟩
  rw [quoteList_append]
  have hsp : quoteList (' ' :: b) = ['%', '2', '0'] ++ quoteList b := by
    rw [quoteList]
    rfl
  rw [hsp, List.append_assoc]

/-- C7: for an occurrence resolved through the location index whose final
relative path contains a space and whose anchor is non-empty, the emitted
replacement embeds the percent-encoded path — `%20` occurs in it and no raw
space survives anywhere in the encoding — while the anchor appears
unencoded, joined to the path with `#`. -/
theorem c7_percent_encoding (r : EzLinksReplacer) (path : String) (tm : TargetMap)
    (sc : Scanner) (rest : List Scanner) (link : Link) (m s0 : String)
    (hs : r.scanners = sc :: rest) (hm : sc.claims m = true)
    (he : sc.extract m = some link) (ht : link.target ≠ "")
    (hf : tmFind tm link.target = none)
    (hsr : massageSearchResult r.use_directory_urls (r.search path link.target) = s0)
    (hs0 : s0 ≠ "")
    (hspace : ' ' ∈ (relpath s0 (dirname (pathJoin r.root path))).data)
    (ha : link.anchor ≠ "") :
    (doReplace r path tm m).1
      = (if link.image then "!" else "") ++ "[" ++ link.text ++ "]("
        ++ quote (relpath s0 (dirname (pathJoin r.root path)))
        ++ ("#" ++ link.anchor)
        ++ (if link.title = "" then "" else " \"" ++ link.title ++ "\"") ++ ")" ∧
    ['%', '2', '0'] <:+: (quote (relpath s0 (dirname (pathJoin r.root path)))).data ∧
    ' ' ∉ (quote (relpath s0 (dirname (pathJoin r.root path)))).data := by
  have happ := doReplace_index_path r path tm sc rest link m hs hm he ht hf
    (by rw [hsr]; exact hs0)
  rw [hsr] at happ
  refine ⟨?_, ?_, ?_⟩
  case refine_2 =>
    rw [quote_data]
    exact space_percent_infix _ hspace
  case refine_3 =>
    rw [quote_data]
    exact space_not_mem_quoteList _
  rw [happ]
  show finalRender (dirname (pathJoin r.root path)) { link with target := s0 } = _
  unfold finalRender
  simp [Link.render, ha]

/-- A concrete replacer whose file map resolves target `x` to a path with
a space, for an occurrence carrying anchor `s`. -/
def c7Env : EzLinksReplacer :=
  { root := "/r", search := fun _ _ => "/r/my page", use_directory_urls := true,
    scanners := [⟨fun _ => true, fun _ => some ⟨false, "x", "x", "s", ""⟩⟩],
    target_scanners := [], tokenize := fun _ => [], findTargets := fun _ => [] }

theorem c7_witness :
    (c7Env.scanners = (⟨fun _ => true, fun _ => some ⟨false, "x", "x", "s", ""⟩⟩
        : Scanner) :: []) ∧
    ((⟨false, "x", "x", "s", ""⟩ : Link).target ≠ "") ∧
    (massageSearchResult c7Env.use_directory_urls (c7Env.search "d.md" "x")
      = "/r/my page") ∧
    ("/r/my page" ≠ "") ∧
    (' ' ∈ (relpath "/r/my page" (dirname (pathJoin c7Env.root "d.md"))).data) ∧
    ((⟨false, "x", "x", "s", ""⟩ : Link).anchor ≠ "") ∧
    ((doReplace c7Env "d.md" [] "[[x]]").1
      = (if (false : Bool) then "!" else "") ++ "[" ++ "x" ++ "]("
        ++ quote (relpath "/r/my page" (dirname (pathJoin c7Env.root "d.md")))
        ++ ("#" ++ "s")
        ++ (if ("" : String) = "" then "" else " \"" ++ "" ++ "\"") ++ ")" ∧
      ['%', '2', '0']
        <:+: (quote (relpath "/r/my page" (dirname (pathJoin c7Env.root "d.md")))).data ∧
      ' ' ∉ (quote (relpath "/r/my page" (dirname (pathJoin c7Env.root "d.md")))).data) :=
  ⟨by rfl, by decide, by rfl, by decide, by decide, by decide,
    c7_percent_encoding c7Env "d.md" []
      ⟨fun _ => true, fun _ => some ⟨false, "x", "x", "s", ""⟩⟩ []
      ⟨false, "x", "x", "s", ""⟩ "[[x]]" "/r/my page"
      (by rfl) (by rfl) (by rfl) (by decide) (by rfl) (by rfl) (by decide) (by decide)
      (by decide)⟩

end EzLinks
